import Mathlib

/-!
Shallow embedding of the connection-bootstrap and enrollment subsystem of
`config.go` (package main): the enrollment wizard `enroll`, the connection
builder `NewXMPPConn`, and the helpers they use.  External collaborators
(the coyim config/xmpp/otr3/proxy packages, the terminal, the filesystem
and the network) are modelled as an explicit record of capabilities
(`Collab`), and terminal input as a finite list of lines, so every
function is executable and total.
-/

namespace Coy

/-- One byte of data (Go `byte`); values are kept as `Nat`. -/
abbrev Byte := Nat

/-- The fields of `coyconf.Config` that `config.go` reads or writes.
`Port` is Go `int`, so it is modelled as `Int`; `PrivateKey` is the
opaque serialized key bytes. -/
structure Config where
  Account : String
  RawLogFile : String
  UseTor : Bool
  PrivateKey : List Byte
  OTRAutoAppendTag : Bool
  OTRAutoStartSession : Bool
  OTRAutoTearDown : Bool
  Proxies : List String
  Server : String
  Port : Int
  ServerCertificateSHA256 : String
  deriving Repr, DecidableEq

/-- The all-zero configuration record, as produced by Go `new(coyconf.Config)`. -/
def emptyConfig : Config :=
  { Account := "", RawLogFile := "", UseTor := false, PrivateKey := [],
    OTRAutoAppendTag := false, OTRAutoStartSession := false,
    OTRAutoTearDown := false, Proxies := [], Server := "", Port := 0,
    ServerCertificateSHA256 := "" }

/-- Split a character list at the first occurrence of `c`: `none` when `c`
does not occur, otherwise the (c-free) part before the first `c` and
everything after it. -/
def breakAt (c : Char) : List Char → Option (List Char × List Char)
  | [] => none
  | x :: xs =>
    if x = c then some ([], xs)
    else
      match breakAt c xs with
      | none => none
      | some (a, b) => some (x :: a, b)

/-- Go `strings.SplitN(s, string(sep), 2)` for a one-character separator:
if `sep` occurs in `s` the result is the two pieces around its first
occurrence, otherwise the one-element list `[s]`. -/
def goSplitN2 (sep : Char) (s : String) : List String :=
  match breakAt sep s.data with
  | none => [s]
  | some (a, b) => [String.mk a, String.mk b]

/-- Value of a hexadecimal digit, `none` for a non-hex character
(Go `encoding/hex` digit table). -/
def hexDigit (c : Char) : Option Nat :=
  if '0' ≤ c ∧ c ≤ '9' then some (c.toNat - '0'.toNat)
  else if 'a' ≤ c ∧ c ≤ 'f' then some (c.toNat - 'a'.toNat + 10)
  else if 'A' ≤ c ∧ c ≤ 'F' then some (c.toNat - 'A'.toNat + 10)
  else none

/-- Go `hex.DecodeString`: decode pairs of hex digits into bytes, failing
on an odd-length input or any non-hex character. -/
def hexDecode : List Char → Option (List Byte)
  | [] => some []
  | [_] => none
  | a :: b :: rest =>
    (hexDigit a).bind fun hi =>
      (hexDigit b).bind fun lo =>
        (hexDecode rest).map fun tail => (hi * 16 + lo) :: tail

/-- Go `strconv.Atoi` on a decimal digit run. `none` models the error
return; the numeric result is exact (overflow of huge inputs is not
modelled — every such input is rejected by the same `0 < p ≤ 65535`
range check that rejects the exact value). -/
def decDigits : List Char → Option Nat
  | [] => none
  | l =>
    if l.all (fun c => decide ('0' ≤ c) && decide (c ≤ '9')) then
      some (l.foldl (fun a c => a * 10 + (c.toNat - '0'.toNat)) 0)
    else none

/-- Go `strconv.Atoi`: optional sign followed by at least one digit. -/
def goAtoi (s : String) : Option Int :=
  match s.data with
  | '+' :: rest => (decDigits rest).map Int.ofNat
  | '-' :: rest => (decDigits rest).map (fun n => -(n : Int))
  | l => (decDigits l).map Int.ofNat

/-- Error taxonomy of the bootstrap path of `NewXMPPConn`; each
constructor carries the dynamic part of the corresponding
`errors.New` message in the source. -/
inductive ConnErr where
  | invalidAccount (account : String)
  | proxyWithoutServer
  | resolutionFailed (msg : String)
  | invalidProxyURL (entry : String)
  | unsupportedProxy (entry : String)
  | invalidPinEncoding (msg : String)
  | invalidPinLength
  | transportDialFailed (msg : String)
  | sessionEstablishFailed (msg : String)
  deriving Repr, DecidableEq

/-- A composed `proxy.Dialer`: either the direct-dial primitive
`proxy.Direct`, or the dialer obtained from `proxy.FromURL(u, inner)`,
recorded with the URL string it was built from. -/
inductive Dialer where
  | Direct
  | Wrap (u : String) (d : Dialer)
  deriving Repr, DecidableEq

/-- The external collaborators of `config.go`, modelled as pure
capabilities:
* `parseYes` — `coyconf.ParseYes` (affirmative-answer test);
* `readFile` — `ioutil.ReadFile` (key-file contents or error text);
* `importSerialize` — `otr3.PrivateKey.Import` followed by `Serialize`,
  `none` when `Import` returns false;
* `genKey` — serialized result of `PrivateKey.Generate(rand.Reader)`;
* `resolve` — `xmpp.Resolve(domain)`, a host and `uint16` port or an
  error text;
* `parseURLOk` — whether `url.Parse` succeeds on the string;
* `fromURLOk` — whether `proxy.FromURL` accepts the (parsed) URL;
* `caCertRootDER` / `parseCert` — the embedded DER byte table (pure
  data in the source) and `x509.ParseCertificate` on it, `some cert`
  when parsing succeeds;
* `proxyDialErr` — error text of `dialer.Dial("tcp", addr)`, `none`
  when the transport opens;
* `xmppDialErr` — error text of `xmpp.Dial(addr, ...)`, `none` when a
  session is established. -/
structure Collab where
  parseYes : String → Bool
  readFile : String → Except String (List Byte)
  importSerialize : List Byte → Option (List Byte)
  genKey : List Byte
  resolve : String → Except String (String × Nat)
  parseURLOk : String → Bool
  fromURLOk : String → Bool
  caCertRootDER : List Byte
  parseCert : List Byte → Option (List Byte)
  proxyDialErr : String → Option String
  xmppDialErr : String → Option String

/-- Decidable equality for `Except`, needed to evaluate results on
concrete inputs. -/
instance {ε α : Type} [DecidableEq ε] [DecidableEq α] : DecidableEq (Except ε α) := fun a b =>
  match a, b with
  | .error x, .error y =>
    if h : x = y then isTrue (by rw [h])
    else isFalse (fun g => h (by injection g))
  | .error _, .ok _ => isFalse (fun g => nomatch g)
  | .ok _, .error _ => isFalse (fun g => nomatch g)
  | .ok x, .ok y =>
    if h : x = y then isTrue (by rw [h])
    else isFalse (fun g => h (by injection g))

/-- Outcome of the address-resolution block of `NewXMPPConn`
(lines 231–247): the result (`addr`, `addrTrusted`) or an error, plus
the number of `xmpp.Resolve` calls performed. -/
structure ResolveOut where
  result : Except ConnErr (String × Bool)
  lookups : Nat
  deriving Repr, DecidableEq

/-- Address resolution of `NewXMPPConn` (lines 231–247): explicit
server/port wins and is trusted; otherwise a configured proxy is a hard
error before any lookup; otherwise resolve the domain via the directory
collaborator. -/
def resolveAddr (collab : Collab) (cfg : Config) (domain : String) : ResolveOut :=
  if 0 < cfg.Server.length ∧ 0 < cfg.Port then
    { result := .ok (cfg.Server ++ ":" ++ toString cfg.Port, true), lookups := 0 }
  else if 0 < cfg.Proxies.length then
    { result := .error .proxyWithoutServer, lookups := 0 }
  else
    match collab.resolve domain with
    | .error e => { result := .error (.resolutionFailed e), lookups := 1 }
    | .ok (host, port) =>
      { result := .ok (host ++ ":" ++ toString port, false), lookups := 1 }

/-- `url.Parse(s)` as used by the dialer loop: the URL value is
represented by the string itself. -/
def parseURL (collab : Collab) (s : String) : Except ConnErr String :=
  if collab.parseURLOk s then .ok s else .error (.invalidProxyURL s)

/-- `proxy.FromURL(u, d)`: wraps the inner dialer, or fails for an
unsupported proxy. -/
def fromURL (collab : Collab) (u : String) (d : Dialer) : Except ConnErr Dialer :=
  if collab.fromURLOk u then .ok (.Wrap u d) else .error (.unsupportedProxy u)

/-- Body of the dialer-construction loop of `NewXMPPConn`
(lines 249–263), applied to the proxy entries in iteration order
(index `len-1` down to `0`, i.e. the reversed list).  `none` models the
`nil` dialer before the first iteration; it is replaced by
`proxy.Direct` on first use. -/
def buildDialerGo (collab : Collab) : List String → Option Dialer → Except ConnErr (Option Dialer)
  | [], d => .ok d
  | p :: rest, d =>
    match parseURL collab p with
    | .error e => .error e
    | .ok u =>
      match fromURL collab u (d.getD .Direct) with
      | .error e => .error e
      | .ok d2 => buildDialerGo collab rest (some d2)

/-- The dialer-construction loop of `NewXMPPConn` (lines 249–263):
iterate from the last proxy index down to the first.  An empty proxy
list leaves the dialer `nil` (`none`). -/
def buildDialer (collab : Collab) (proxies : List String) : Except ConnErr (Option Dialer) :=
  buildDialerGo collab proxies.reverse none

/-- Certificate-pin decoding of `NewXMPPConn` (lines 265–276): an empty
pin string yields no pin (`[]`, Go `nil`); otherwise the string must
hex-decode to exactly 32 bytes. -/
def decodePin (pin : String) : Except ConnErr (List Byte) :=
  if 0 < pin.length then
    match hexDecode pin.data with
    | none => .error (.invalidPinEncoding pin)
    | some bs => if bs.length ≠ 32 then .error .invalidPinLength else .ok bs
  else .ok []

/-- Go `tls.VersionTLS10`. -/
def tlsVersionTLS10 : Nat := 0x0301

/-- The fixed cipher-suite allow-list of `NewXMPPConn`, in source order:
ECDHE-ECDSA-AES128-GCM, ECDHE-RSA-AES128-GCM, ECDHE-ECDSA-AES128-CBC,
ECDHE-ECDSA-AES256-CBC, ECDHE-RSA-AES128-CBC, ECDHE-RSA-AES256-CBC. -/
def tlsCipherSuites : List Nat := [0xc02b, 0xc02f, 0xc009, 0xc00a, 0xc013, 0xc014]

/-- The fields of Go `tls.Config` that `NewXMPPConn` sets.  `RootCAs =
none` models the Go `nil` pool, i.e. the default system roots. -/
structure TLSConf where
  MinVersion : Nat
  CipherSuites : List Nat
  RootCAs : Option (List (List Byte))
  deriving Repr, DecidableEq

/-- The fields of `xmpp.Config` that `NewXMPPConn` sets (the opaque
logger and create-account callback are passed through unchanged and are
not modelled).  `Conn = some ()` records a pre-opened transport. -/
structure XMPPGoConfig where
  TrustedAddress : Bool
  Archive : Bool
  ServerCertificateSHA256 : List Byte
  TLSConfig : TLSConf
  Conn : Option Unit
  deriving Repr, DecidableEq

/-- Construction of the `xmppConfig` literal of `NewXMPPConn`
(lines 278–294). -/
def mkXMPPConfig (trusted : Bool) (certSHA256 : List Byte) : XMPPGoConfig :=
  { TrustedAddress := trusted, Archive := false,
    ServerCertificateSHA256 := certSHA256,
    TLSConfig := { MinVersion := tlsVersionTLS10,
                   CipherSuites := tlsCipherSuites, RootCAs := none },
    Conn := none }

/-- The `jabber.ccc.de` override of `NewXMPPConn` (lines 296–310): for
that one domain, when the embedded DER parses, replace the root pool
with a fresh pool holding only that certificate; a parse failure skips
the override silently; other domains are untouched. -/
def applyDomainOverride (collab : Collab) (domain : String) (xc : XMPPGoConfig) : XMPPGoConfig :=
  if domain = "jabber.ccc.de" then
    match collab.parseCert collab.caCertRootDER with
    | some cert =>
      { xc with TLSConfig := { xc.TLSConfig with RootCAs := some [cert] } }
    | none => xc
  else xc

/-- Resource events on the underlying network connection: the raw
transport being opened by `dialer.Dial`, and it being closed. -/
inductive REvent where
  | opened
  | closed
  deriving Repr, DecidableEq

/-- What `NewXMPPConn` hands to `xmpp.Dial` and returns on success. -/
structure Session where
  addr : String
  user : String
  domain : String
  password : String
  config : XMPPGoConfig
  deriving Repr, DecidableEq

/-- `NewXMPPConn` (lines 222–354): returns the protocol-layer result
(or the first error met), the configuration record as left behind by
the call, and the trace of resource events on the raw transport. -/
def newXMPPConn (collab : Collab) (cfg : Config) (password : String) :
    Except ConnErr Session × Config × List REvent :=
  match goSplitN2 '@' cfg.Account with
  | [user, domain] =>
    match (resolveAddr collab cfg domain).result with
    | .error e => (.error e, cfg, [])
    | .ok (addr, addrTrusted) =>
      match buildDialer collab cfg.Proxies with
      | .error e => (.error e, cfg, [])
      | .ok dialer =>
        match decodePin cfg.ServerCertificateSHA256 with
        | .error e => (.error e, cfg, [])
        | .ok certSHA256 =>
          let xc := applyDomainOverride collab domain
            (mkXMPPConfig addrTrusted certSHA256)
          match dialer with
          | some _ =>
            match collab.proxyDialErr addr with
            | some e => (.error (.transportDialFailed e), cfg, [])
            | none =>
              let xc := { xc with Conn := some () }
              match collab.xmppDialErr addr with
              | some e => (.error (.sessionEstablishFailed e), cfg, [.opened])
              | none =>
                (.ok { addr := addr, user := user, domain := domain,
                       password := password, config := xc }, cfg, [.opened])
          | none =>
            match collab.xmppDialErr addr with
            | some e => (.error (.sessionEstablishFailed e), cfg, [])
            | none =>
              (.ok { addr := addr, user := user, domain := domain,
                     password := password, config := xc }, cfg, [])
  | _ => (.error (.invalidAccount cfg.Account), cfg, [])

/-- The fixed local SOCKS5 default of the wizard. -/
def torProxyURL : String := "socks5://127.0.0.1:9050"

/-- The well-known Tor hidden-service table of `enroll`
(lines 99–105). -/
def knownTorDomain (d : String) : Option String :=
  if d = "jabber.ccc.de" then some "okj7xc6j2szr2y75.onion"
  else if d = "riseup.net" then some "4cjw6cwpeaeppfqz.onion"
  else if d = "jabber.calyxinstitute.org" then some "ijeeynrc6x2uy5ob.onion"
  else if d = "jabber.otr.im" then some "5rgdtlawqkcplz75.onion"
  else if d = "wtfismyip.com" then some "ofkztxcohimx34la.onion"
  else none

/-- The account loop of `enroll` (lines 34–47): each iteration reads a
line into `config.Account`; a read failure (exhausted input) or an empty
line quits the wizard (`none`); a line without `@` re-prompts; otherwise
the loop exits with the domain part. -/
def accountLoop (cfg : Config) : List String → Option (Config × String × List String)
  | [] => none
  | line :: rest =>
    let cfg := { cfg with Account := line }
    if line.length = 0 then none
    else
      match goSplitN2 '@' line with
      | [_, d] => some (cfg, d, rest)
      | _ => accountLoop cfg rest

/-- The private-key loop of `enroll` (lines 69–91): a read failure
cancels enrollment; a named file that fails to read or import
re-prompts; a readable, importable file or an empty answer (generate)
exits with the serialized key. -/
def keyLoop (collab : Collab) : List String → Option (List Byte × List String)
  | [] => none
  | line :: rest =>
    if 0 < line.length then
      match collab.readFile line with
      | .error _ => keyLoop collab rest
      | .ok bs =>
        match collab.importSerialize bs with
        | none => keyLoop collab rest
        | some k => some (k, rest)
    else some (collab.genKey, rest)

/-- The proxy loop of `enroll` (lines 125–146): an empty answer breaks
with no proxy only when Tor is off, otherwise it becomes
`torProxyURL`; the answer must then parse as a URL and build as a
proxy, re-prompting on either failure; a read failure cancels.  Returns
the final `proxyStr` (empty means no proxy). -/
def proxyLoop (collab : Collab) (useTor : Bool) : List String → Option (String × List String)
  | [] => none
  | line :: rest =>
    if line.length = 0 ∧ useTor = false then some ("", rest)
    else
      let pstr := if line.length = 0 then torProxyURL else line
      if collab.parseURLOk pstr = false then proxyLoop collab useTor rest
      else if collab.fromURLOk pstr = false then proxyLoop collab useTor rest
      else some (pstr, rest)

/-- The port loop of `enroll` (lines 166–180): empty input defaults to
"5222"; `config.Port` receives the `Atoi` result (0 on parse error) even
on a rejected iteration, exactly as in the source; values outside
`1..65535` re-prompt; a read failure cancels. -/
def portLoop (cfg : Config) : List String → Option (Config × List String)
  | [] => none
  | line :: rest =>
    let portStr := if line.length = 0 then "5222" else line
    match goAtoi portStr with
    | none => portLoop { cfg with Port := 0 } rest
    | some v =>
      if v ≤ 0 ∨ 65535 < v then portLoop { cfg with Port := v } rest
      else some ({ cfg with Port := v }, rest)

/-- The proxy/server/port phase of `enroll` (lines 118–182), entered
when the Tor shortcut did not fire: run the proxy loop; when a proxy was
chosen, store it, read the server line (read failure cancels); an empty
server line triggers the directory lookup, whose failure cancels the
whole enrollment; a non-empty server line leads to the port loop. -/
def enrollProxyPhase (collab : Collab) (cfg : Config) (domain : String)
    (input : List String) : Option (Config × List String) :=
  match proxyLoop collab cfg.UseTor input with
  | none => none
  | some (proxyStr, input) =>
    if 0 < proxyStr.length then
      let cfg := { cfg with Proxies := [proxyStr] }
      match input with
      | [] => none
      | serverLine :: input =>
        let cfg := { cfg with Server := serverLine }
        if serverLine.length = 0 then
          match collab.resolve domain with
          | .error _ => none
          | .ok (host, port) =>
            some ({ cfg with Server := host, Port := (port : Int) }, input)
        else
          portLoop cfg input
    else some (cfg, input)

/-- The tail of `enroll` after the key step (lines 94–186): fix the
three OTR policy flags, take the Tor shortcut when it applies
(terminating with the hidden service, port 5222 and the single default
proxy, consuming no further input), otherwise run the proxy phase. -/
def enrollTail (collab : Collab) (cfg : Config) (domain : String)
    (input : List String) : Option (Config × List String) :=
  let cfg := { cfg with OTRAutoAppendTag := true, OTRAutoStartSession := true,
                        OTRAutoTearDown := false }
  match knownTorDomain domain with
  | some hiddenService =>
    if cfg.UseTor then
      some ({ cfg with Server := hiddenService, Port := 5222,
                       Proxies := [torProxyURL] }, input)
    else enrollProxyPhase collab cfg domain input
  | none => enrollProxyPhase collab cfg domain input

/-- One `term.ReadLine()` on the modelled input: `none` is the error
return (end of input). -/
def readLine : List String → Option String × List String
  | [] => (none, [])
  | l :: r => (some l, r)

/-- `enroll` (lines 29–187) over a finite list of terminal answers:
`some (cfg, rest)` is the `return true` case with the populated record
and the unconsumed input, `none` is `return false`.  The debug and Tor
prompts treat a failed read as a non-affirmative answer, exactly as the
source does. -/
def enroll (collab : Collab) (cfg : Config) (input : List String) :
    Option (Config × List String) :=
  match accountLoop cfg input with
  | none => none
  | some (cfg, domain, input) =>
    let (dbgAns, input) := readLine input
    let cfg :=
      match dbgAns with
      | some a =>
        if collab.parseYes a then { cfg with RawLogFile := "/tmp/xmpp-client-debug.log" }
        else cfg
      | none => cfg
    let (torAns, input) := readLine input
    let useTor :=
      match torAns with
      | some a => decide (0 < a.length) && collab.parseYes a
      | none => false
    let cfg := { cfg with UseTor := useTor }
    match keyLoop collab input with
    | none => none
    | some (key, input) =>
      enrollTail collab { cfg with PrivateKey := key } domain input


/-- A fully concrete collaborator record used to exercise the embedding
on closed inputs: every URL parses, every proxy except one marked string
is constructible, the directory lookup and the key file always fail,
both dials succeed. -/
def demoCollab : Collab :=
  { parseYes := fun s => s = "y" || s = "yes",
    readFile := fun _ => .error "no such file",
    importSerialize := fun _ => none,
    genKey := [1, 2, 3],
    resolve := fun _ => .error "dns failure",
    parseURLOk := fun s => s ≠ "://bad-url",
    fromURLOk := fun s => s ≠ "http://unsupported",
    caCertRootDER := [0x30, 0x82],
    parseCert := fun _ => none,
    proxyDialErr := fun _ => none,
    xmppDialErr := fun _ => none }

/-- The identity-validity predicate written from the spec's words, for
comparison with the source behavior: exactly one `@`, with non-empty
parts on both sides. -/
def specValidIdentity (s : String) : Bool :=
  match breakAt '@' s.data with
  | some (a, b) => decide (a ≠ []) && decide (b ≠ []) && decide ('@' ∉ b)
  | none => false

/-- The dialer value accumulated by a run of successful loop iterations,
starting from `d`. -/
def goChain : List String → Option Dialer → Option Dialer
  | [], d => d
  | p :: rest, d => goChain rest (some (.Wrap p (d.getD .Direct)))

/-- A configuration record that opens the raw transport through the
proxy dialer before the protocol dial. -/
def leakCfg : Config :=
  { emptyConfig with Account := "a@b", Server := "example.org", Port := 5222,
                     Proxies := ["socks5://127.0.0.1:9050"] }

/-- Collaborators for which the proxy dial succeeds but the protocol
dial fails. -/
def leakCollab : Collab := { demoCollab with xmppDialErr := fun _ => some "connection reset" }
end Coy

namespace Coy

theorem string_length_pos (s : String) : 0 < s.length ↔ s ≠ "" := by
  constructor
  · intro h he; subst he; simp at h
  · intro h
    cases s with
    | mk data =>
      cases data with
      | nil => exact absurd rfl h
      | cons a l => simp [String.length]

theorem breakAt_eq_some (c : Char) :
    ∀ l a b, breakAt c l = some (a, b) → l = a ++ c :: b ∧ c ∉ a
  | [], a, b, h => by simp [breakAt] at h
  | x :: xs, a, b, h => by
    by_cases hx : x = c
    · subst hx
      simp only [breakAt, if_pos rfl, Option.some.injEq, Prod.mk.injEq] at h
      obtain ⟨rfl, rfl⟩ := h
      simp
    · simp only [breakAt, if_neg hx] at h
      cases h2 : breakAt c xs with
      | none => rw [h2] at h; exact absurd h (by simp)
      | some p =>
        obtain ⟨a2, b2⟩ := p
        rw [h2] at h
        simp only [Option.some.injEq, Prod.mk.injEq] at h
        obtain ⟨rfl, rfl⟩ := h
        obtain ⟨hd, hm⟩ := breakAt_eq_some c xs a2 b2 h2
        refine ⟨by simp [hd], ?_⟩
        simp only [List.mem_cons, not_or]
        exact ⟨fun hc => hx hc.symm, hm⟩

theorem breakAt_eq_none_iff (c : Char) : ∀ l, breakAt c l = none ↔ c ∉ l
  | [] => by simp [breakAt]
  | x :: xs => by
    by_cases hx : x = c
    · subst hx; simp [breakAt]
    · simp only [breakAt, if_neg hx]
      cases h2 : breakAt c xs with
      | none =>
        have hn := (breakAt_eq_none_iff c xs).mp h2
        simp [List.mem_cons, hn]
        exact fun h => hx h.symm
      | some p =>
        obtain ⟨a, b⟩ := p
        obtain ⟨hd, _⟩ := breakAt_eq_some c xs a b h2
        have hc : c ∈ xs := by rw [hd]; simp
        simp [List.mem_cons, hc]

theorem goSplitN2_length_two (s : String) :
    (goSplitN2 '@' s).length = 2 ↔ '@' ∈ s.data := by
  unfold goSplitN2
  cases h : breakAt '@' s.data with
  | none =>
    have := (breakAt_eq_none_iff '@' s.data).mp h
    simp [this]
  | some p =>
    obtain ⟨a, b⟩ := p
    obtain ⟨hd, _⟩ := breakAt_eq_some '@' s.data a b h
    have hmem : '@' ∈ s.data := by rw [hd]; simp
    simp [hmem]

theorem goSplitN2_decomp (s u d : String) (h : goSplitN2 '@' s = [u, d]) :
    s = u ++ "@" ++ d ∧ '@' ∉ u.data := by
  unfold goSplitN2 at h
  cases h2 : breakAt '@' s.data with
  | none => rw [h2] at h; simp at h
  | some p =>
    obtain ⟨a, b⟩ := p
    rw [h2] at h
    simp only [List.cons.injEq, and_true] at h
    obtain ⟨rfl, rfl⟩ := h
    obtain ⟨hd, hm⟩ := breakAt_eq_some '@' s.data a b h2
    refine ⟨?_, hm⟩
    apply String.ext
    simp [String.data_append, hd]

theorem goSplitN2_no_at (s : String) (h : '@' ∉ s.data) : goSplitN2 '@' s = [s] := by
  unfold goSplitN2
  rw [(breakAt_eq_none_iff '@' s.data).mpr h]

end Coy

namespace Coy



/-- Claim C1: the address resolver of `NewXMPPConn` follows the
three-branch decision order — explicit server and positive port win and
are trusted with no lookup; otherwise configured proxies fail with the
proxy-without-explicit-server error and no lookup; otherwise the
directory lookup decides, untrusted on success, failing on error. -/
theorem claim_c1_address_resolver (collab : Collab) (cfg : Config) (domain : String) :
    ((0 < cfg.Server.length ∧ 0 < cfg.Port) →
      resolveAddr collab cfg domain =
        { result := .ok (cfg.Server ++ ":" ++ toString cfg.Port, true), lookups := 0 })
    ∧ (¬(0 < cfg.Server.length ∧ 0 < cfg.Port) → cfg.Proxies ≠ [] →
      resolveAddr collab cfg domain =
        { result := .error .proxyWithoutServer, lookups := 0 })
    ∧ (¬(0 < cfg.Server.length ∧ 0 < cfg.Port) → cfg.Proxies = [] →
      ((∀ e, collab.resolve domain = .error e →
         resolveAddr collab cfg domain =
           { result := .error (.resolutionFailed e), lookups := 1 })
       ∧ (∀ h p, collab.resolve domain = .ok (h, p) →
         resolveAddr collab cfg domain =
           { result := .ok (h ++ ":" ++ toString p, false), lookups := 1 }))) := by
  refine ⟨?_, ?_, ?_⟩
  · intro h
    simp [resolveAddr, h]
  · intro h1 h2
    simp [resolveAddr, h1, List.length_pos.mpr h2]
  · intro h1 h2
    constructor
    · intro e he
      simp [resolveAddr, h1, h2, he]
    · intro h p hp
      simp [resolveAddr, h1, h2, hp]

/-- Claim C1 witness: the first branch evaluated on a concrete record. -/
theorem claim_c1_address_resolver_witness :
    resolveAddr demoCollab { emptyConfig with Server := "s", Port := 5222 } "d" =
      { result := .ok ("s" ++ ":" ++ toString (5222 : Int), true), lookups := 0 } :=
  (claim_c1_address_resolver demoCollab { emptyConfig with Server := "s", Port := 5222 } "d").1
    (by decide)

end Coy

namespace Coy



/-- Claim C2 counterexample: on the account string `"@"` the source
split (Go `strings.SplitN(s, "@", 2)`) succeeds — both call sites accept
the string — although the spec-side validity predicate (exactly one `@`,
non-empty parts) rejects it, so success is not equivalent to the spec's
condition. -/
theorem claim_c2_counterexample :
    (goSplitN2 '@' "@").length = 2 ∧ specValidIdentity "@" = false := by decide

/-- Claim C2 (amended): splitting succeeds iff the account string
contains at least one `@` (parts may be empty and the domain may contain
further `@`s); on success the parts are the substrings around the first
`@`; on failure `NewXMPPConn` returns the invalid-account error and the
wizard's account loop re-prompts (on a non-empty line). -/
theorem claim_c2_split_identity (s : String) :
    ((goSplitN2 '@' s).length = 2 ↔ '@' ∈ s.data)
    ∧ (∀ u d, goSplitN2 '@' s = [u, d] → s = u ++ "@" ++ d ∧ '@' ∉ u.data)
    ∧ ((goSplitN2 '@' s).length ≠ 2 →
        ∀ collab cfg pw, cfg.Account = s →
          (newXMPPConn collab cfg pw).1 = .error (.invalidAccount s))
    ∧ (∀ rest cfg, s ≠ "" → (goSplitN2 '@' s).length ≠ 2 →
        accountLoop cfg (s :: rest) = accountLoop { cfg with Account := s } rest) := by
  refine ⟨goSplitN2_length_two s, fun u d h => goSplitN2_decomp s u d h, ?_, ?_⟩
  · intro hlen collab cfg pw hacc
    have hno : '@' ∉ s.data := fun hmem => hlen ((goSplitN2_length_two s).mpr hmem)
    have hone : goSplitN2 '@' s = [s] := goSplitN2_no_at s hno
    subst hacc
    simp [newXMPPConn, hone]
  · intro rest cfg hne hlen
    have hno : '@' ∉ s.data := fun hmem => hlen ((goSplitN2_length_two s).mpr hmem)
    have hone : goSplitN2 '@' s = [s] := goSplitN2_no_at s hno
    have hpos : ¬(s.length = 0) := by
      have := (string_length_pos s).mpr hne
      omega
    simp [accountLoop, hpos, hone]

/-- Claim C2 witness: the amended decomposition on a concrete account. -/
theorem claim_c2_split_identity_witness :
    "u@d" = "u" ++ "@" ++ "d" ∧ '@' ∉ "u".data :=
  (claim_c2_split_identity "u@d").2.1 "u" "d" (by decide)

end Coy

namespace Coy

/-- A successful hex decode consumes exactly two characters per byte. -/
theorem hexDecode_length : ∀ l bs, hexDecode l = some bs → l.length = 2 * bs.length
  | [], bs, h => by
    simp only [hexDecode, Option.some.injEq] at h
    subst h
    rfl
  | [_], bs, h => by simp [hexDecode] at h
  | a :: b :: rest, bs, h => by
    simp only [hexDecode] at h
    cases ha : hexDigit a with
    | none => rw [ha] at h; simp at h
    | some hi =>
      rw [ha] at h
      cases hb : hexDigit b with
      | none => rw [hb] at h; simp at h
      | some lo =>
        rw [hb] at h
        cases hr : hexDecode rest with
        | none => rw [hr] at h; simp at h
        | some tail =>
          rw [hr] at h
          simp at h
          subst h
          have ih := hexDecode_length rest tail hr
          simp only [List.length_cons, ih]
          omega

/-- Claim C4: pin handling of `NewXMPPConn` — an empty pin yields no pin
and no error; a non-empty pin that fails hex decoding yields the
encoding error; a decode of length other than 32 yields the length
error; a 64-hex-character pin decodes to 32 bytes carried unchanged into
the protocol-layer configuration; and an undecodable pin never produces
a session. -/
theorem claim_c4_pin_decoding (pin : String) :
    (pin = "" → decodePin pin = .ok [])
    ∧ (pin ≠ "" → hexDecode pin.data = none →
        decodePin pin = .error (.invalidPinEncoding pin))
    ∧ (∀ bs, pin ≠ "" → hexDecode pin.data = some bs → bs.length ≠ 32 →
        decodePin pin = .error .invalidPinLength)
    ∧ (∀ bs, pin.length = 64 → hexDecode pin.data = some bs →
        decodePin pin = .ok bs
        ∧ ∀ trusted, (mkXMPPConfig trusted bs).ServerCertificateSHA256 = bs) := by
  refine ⟨?_, ?_, ?_, ?_⟩
  · intro h; subst h; rfl
  · intro hne hdec
    have hpos : 0 < pin.length := (string_length_pos pin).mpr hne
    simp [decodePin, hpos, hdec]
  · intro bs hne hdec hlen
    have hpos : 0 < pin.length := (string_length_pos pin).mpr hne
    simp [decodePin, hpos, hdec, hlen]
  · intro bs hlen hdec
    have h32 : bs.length = 32 := by
      have := hexDecode_length pin.data bs hdec
      have hdl : pin.length = pin.data.length := rfl
      omega
    have hpos : 0 < pin.length := by omega
    refine ⟨?_, fun trusted => rfl⟩
    simp [decodePin, hpos, hdec, h32]

/-- Claim C4 witness: the all-zero 64-character pin decodes to 32 zero
bytes, carried unchanged. -/
theorem claim_c4_pin_decoding_witness :
    decodePin (String.mk (List.replicate 64 '0')) = .ok (List.replicate 32 0) := by
  have h := ((claim_c4_pin_decoding (String.mk (List.replicate 64 '0'))).2.2.2
    (List.replicate 32 0) (by decide) (by decide)).1
  exact h

end Coy

namespace Coy



theorem goChain_some : ∀ (l : List String) (x : Dialer),
    goChain l (some x) = some (l.foldl (fun a p => Dialer.Wrap p a) x)
  | [], x => rfl
  | p :: rest, x => by
    simp only [goChain, Option.getD, List.foldl_cons]
    exact goChain_some rest (.Wrap p x)

theorem goChain_nonempty (l : List String) (h : l ≠ []) :
    goChain l none = some (l.foldl (fun a p => Dialer.Wrap p a) .Direct) := by
  cases l with
  | nil => exact absurd rfl h
  | cons p rest =>
    simp only [goChain, Option.getD, List.foldl_cons]
    exact goChain_some rest (.Wrap p .Direct)

theorem buildDialerGo_allOk (collab : Collab) : ∀ (l : List String) (d : Option Dialer),
    (∀ p ∈ l, collab.parseURLOk p = true ∧ collab.fromURLOk p = true) →
    buildDialerGo collab l d = .ok (goChain l d)
  | [], d, _ => rfl
  | p :: rest, d, h => by
    obtain ⟨hp, hf⟩ := h p (List.mem_cons_self p rest)
    simp only [buildDialerGo, parseURL, hp, if_true, fromURL, hf, goChain]
    exact buildDialerGo_allOk collab rest (some (.Wrap p (d.getD .Direct)))
      (fun q hq => h q (List.mem_cons_of_mem p hq))

theorem buildDialerGo_append_ok (collab : Collab) :
    ∀ (l1 l2 : List String) (d d2 : Option Dialer),
    buildDialerGo collab l1 d = .ok d2 →
    buildDialerGo collab (l1 ++ l2) d = buildDialerGo collab l2 d2
  | [], l2, d, d2, h => by
    simp only [buildDialerGo, Except.ok.injEq] at h
    subst h
    rfl
  | p :: rest, l2, d, d2, h => by
    simp only [List.cons_append, buildDialerGo, parseURL, fromURL] at h ⊢
    by_cases hp : collab.parseURLOk p = true
    · simp only [hp, if_true] at h ⊢
      by_cases hf : collab.fromURLOk p = true
      · simp only [hf, if_true] at h ⊢
        exact buildDialerGo_append_ok collab rest l2 _ d2 h
      · simp [hf] at h
    · simp [hp] at h

/-- Claim C3: the dialer is composed by iterating the proxy list from
the last index down to the first, wrapping a direct-dial primitive, so
that entry `n-1` is innermost and entry `0` outermost (`foldr Wrap
Direct`); an empty list yields the direct (`nil`) dialer; a malformed
URL or unsupported proxy at the first failing entry in iteration order
makes the construction fail with an error naming that entry. -/
theorem claim_c3_dialer_chain (collab : Collab) (P : List String) :
    (P = [] → buildDialer collab P = .ok none)
    ∧ (P ≠ [] → (∀ p ∈ P, collab.parseURLOk p = true ∧ collab.fromURLOk p = true) →
        buildDialer collab P = .ok (some (P.foldr Dialer.Wrap Dialer.Direct)))
    ∧ (∀ i (hi : i < P.length),
        (∀ p ∈ P.drop (i + 1), collab.parseURLOk p = true ∧ collab.fromURLOk p = true) →
        ((collab.parseURLOk P[i] = false →
           buildDialer collab P = .error (.invalidProxyURL P[i]))
         ∧ (collab.parseURLOk P[i] = true → collab.fromURLOk P[i] = false →
            buildDialer collab P = .error (.unsupportedProxy P[i])))) := by
  refine ⟨?_, ?_, ?_⟩
  · intro h; subst h; rfl
  · intro hne hall
    have hrev : ∀ p ∈ P.reverse, collab.parseURLOk p = true ∧ collab.fromURLOk p = true :=
      fun p hp => hall p (List.mem_reverse.mp hp)
    have h1 := buildDialerGo_allOk collab P.reverse none hrev
    have h2 : P.reverse ≠ [] := by simpa using hne
    rw [buildDialer, h1, goChain_nonempty P.reverse h2, List.foldl_reverse]
  · intro i hi hgood
    have hsplit : P = P.take i ++ P[i] :: P.drop (i + 1) := by
      conv_lhs => rw [← List.take_append_drop i P]
      rw [List.drop_eq_getElem_cons hi]
    have hrev : P.reverse =
        (P.drop (i + 1)).reverse ++ P[i] :: (P.take i).reverse := by
      conv_lhs => rw [hsplit]
      simp
    have hgoodrev : ∀ p ∈ (P.drop (i + 1)).reverse,
        collab.parseURLOk p = true ∧ collab.fromURLOk p = true :=
      fun p hp => hgood p (List.mem_reverse.mp hp)
    have hok := buildDialerGo_allOk collab (P.drop (i + 1)).reverse none hgoodrev
    have happ := buildDialerGo_append_ok collab (P.drop (i + 1)).reverse
      (P[i] :: (P.take i).reverse) none (goChain (P.drop (i + 1)).reverse none) hok
    constructor
    · intro hbadp
      rw [buildDialer, hrev, happ]
      simp [buildDialerGo, parseURL, hbadp]
    · intro hokp hbadf
      rw [buildDialer, hrev, happ]
      simp [buildDialerGo, parseURL, hokp, fromURL, hbadf]

/-- Claim C3 witness: a two-entry chain evaluated concretely — the last
entry is the innermost wrap. -/
theorem claim_c3_dialer_chain_witness :
    buildDialer demoCollab ["socks5://a", "socks5://b"] =
      .ok (some (.Wrap "socks5://a" (.Wrap "socks5://b" .Direct))) :=
  (claim_c3_dialer_chain demoCollab ["socks5://a", "socks5://b"]).2.1
    (by decide) (by decide)

end Coy

namespace Coy

/-- Claim C5: when Tor is enabled and the account's domain is in the
hidden-service table, the wizard sets server to the onion host, port to
5222 and the proxy list to exactly the fixed local SOCKS5 default, and
returns true consuming no further input (no proxy/server/port prompts);
the scenario "alice@riseup.net", "n", "y", "" ends this way. -/
theorem claim_c5_tor_shortcut :
    (∀ (collab : Collab) (cfg : Config) (domain : String) (input : List String) (hs : String),
      knownTorDomain domain = some hs → cfg.UseTor = true →
      enrollTail collab cfg domain input =
        some ({ cfg with OTRAutoAppendTag := true, OTRAutoStartSession := true,
                         OTRAutoTearDown := false, Server := hs, Port := 5222,
                         Proxies := [torProxyURL] }, input))
    ∧ enroll demoCollab emptyConfig ["alice@riseup.net", "n", "y", ""] =
        some ({ emptyConfig with
                  Account := "alice@riseup.net", UseTor := true,
                  PrivateKey := demoCollab.genKey, OTRAutoAppendTag := true,
                  OTRAutoStartSession := true, Server := "4cjw6cwpeaeppfqz.onion",
                  Port := 5222, Proxies := [torProxyURL] }, []) := by
  constructor
  · intro collab cfg domain input hs hdom htor
    simp [enrollTail, hdom, htor]
  · decide

/-- Claim C5 witness: the shortcut branch applied at concrete inputs. -/
theorem claim_c5_tor_shortcut_witness :
    enrollTail demoCollab { emptyConfig with UseTor := true } "riseup.net" ["left"] =
      some ({ emptyConfig with
                UseTor := true, OTRAutoAppendTag := true,
                OTRAutoStartSession := true, OTRAutoTearDown := false,
                Server := "4cjw6cwpeaeppfqz.onion", Port := 5222,
                Proxies := [torProxyURL] }, ["left"]) :=
  claim_c5_tor_shortcut.1 demoCollab { emptyConfig with UseTor := true }
    "riseup.net" ["left"] "4cjw6cwpeaeppfqz.onion" (by decide) (by decide)

/-- Claim C6: in the proxy prompt, an empty answer is accepted as no
proxy (record untouched, server/port prompts skipped) exactly when Tor
is disabled; with Tor enabled an empty answer behaves as if the fixed
SOCKS5 default had been typed; a non-empty answer failing URL parsing or
proxy construction re-prompts instead of aborting; a valid answer is
accepted as typed. -/
theorem claim_c6_proxy_prompt (collab : Collab) (cfg : Config) (domain : String)
    (rest : List String) (line : String) :
    (cfg.UseTor = false → enrollProxyPhase collab cfg domain ("" :: rest) = some (cfg, rest))
    ∧ proxyLoop collab true ("" :: rest) = proxyLoop collab true (torProxyURL :: rest)
    ∧ (∀ useTor, line ≠ "" →
        (collab.parseURLOk line = false ∨ collab.fromURLOk line = false) →
        proxyLoop collab useTor (line :: rest) = proxyLoop collab useTor rest)
    ∧ (∀ useTor, line ≠ "" → collab.parseURLOk line = true → collab.fromURLOk line = true →
        proxyLoop collab useTor (line :: rest) = some (line, rest)) := by
  refine ⟨?_, ?_, ?_, ?_⟩
  · intro htor
    simp [enrollProxyPhase, proxyLoop, htor]
  · have hne : ¬(torProxyURL.length = 0) := by decide
    simp [proxyLoop, hne]
  · intro useTor hne hbad
    have hpos : ¬(line.length = 0) := by
      have := (string_length_pos line).mpr hne
      omega
    rcases hbad with hb | hb
    · simp [proxyLoop, hpos, hb]
    · by_cases hp : collab.parseURLOk line = true
      · simp [proxyLoop, hpos, hp, hb]
      · simp [proxyLoop, hpos, hp]
  · intro useTor hne hp hf
    have hpos : ¬(line.length = 0) := by
      have := (string_length_pos line).mpr hne
      omega
    simp [proxyLoop, hpos, hp, hf]

/-- Claim C6 witness: with Tor disabled an empty proxy answer leaves the
record unchanged and consumes only that line. -/
theorem claim_c6_proxy_prompt_witness :
    enrollProxyPhase demoCollab emptyConfig "example.com" ("" :: ["x"]) =
      some (emptyConfig, ["x"]) :=
  (claim_c6_proxy_prompt demoCollab emptyConfig "example.com" ["x"] "").1 rfl

/-- Claim C7: when a proxy was configured and the server prompt is
answered with an empty line, the wizard performs the directory lookup;
a lookup failure aborts the whole enrollment (returns false) with no
re-prompt, while a successful lookup stores the resolved host and port. -/
theorem claim_c7_lookup_abort (collab : Collab) (cfg : Config) (domain : String)
    (input : List String) (pstr : String) (rest : List String) :
    proxyLoop collab cfg.UseTor input = some (pstr, "" :: rest) → pstr ≠ "" →
    ((∀ e, collab.resolve domain = .error e →
        enrollProxyPhase collab cfg domain input = none)
     ∧ (∀ h p, collab.resolve domain = .ok (h, p) →
        enrollProxyPhase collab cfg domain input =
          some ({ cfg with Proxies := [pstr], Server := h, Port := (p : Int) }, rest))) := by
  intro hloop hne
  have hpos : 0 < pstr.length := (string_length_pos pstr).mpr hne
  constructor
  · intro e he
    simp [enrollProxyPhase, hloop, hpos, he]
  · intro h p hp
    simp [enrollProxyPhase, hloop, hpos, hp]

/-- Claim C7 witness: a failing lookup after an explicit proxy and an
empty server line aborts enrollment on concrete input. -/
theorem claim_c7_lookup_abort_witness :
    enrollProxyPhase demoCollab emptyConfig "example.com" ["socks5://x", ""] = none :=
  (claim_c7_lookup_abort demoCollab emptyConfig "example.com" ["socks5://x", ""]
    "socks5://x" [] (by decide) (by decide)).1 "dns failure" rfl

end Coy

namespace Coy

/-- Claim C8: for domain `jabber.ccc.de` the root pool of the TLS
configuration is replaced by a pool holding only the embedded CACert
root when the embedded DER parses; a parse failure skips the override
with no error; any other domain leaves the configuration untouched
(root pool stays the system default). -/
theorem claim_c8_domain_override (collab : Collab) (domain : String) (xc : XMPPGoConfig) :
    (domain = "jabber.ccc.de" →
      ((∀ c, collab.parseCert collab.caCertRootDER = some c →
         applyDomainOverride collab domain xc =
           { xc with TLSConfig := { xc.TLSConfig with RootCAs := some [c] } })
       ∧ (collab.parseCert collab.caCertRootDER = none →
         applyDomainOverride collab domain xc = xc)))
    ∧ (domain ≠ "jabber.ccc.de" → applyDomainOverride collab domain xc = xc) := by
  constructor
  · intro hd
    constructor
    · intro c hc
      simp [applyDomainOverride, hd, hc]
    · intro hc
      simp [applyDomainOverride, hd, hc]
  · intro hd
    simp [applyDomainOverride, hd]

/-- Claim C8 witness: with a failing certificate parse the override is
skipped and the configuration is returned unchanged. -/
theorem claim_c8_domain_override_witness :
    applyDomainOverride demoCollab "jabber.ccc.de" (mkXMPPConfig false []) =
      mkXMPPConfig false [] :=
  ((claim_c8_domain_override demoCollab "jabber.ccc.de" (mkXMPPConfig false [])).1 rfl).2 rfl





/-- Claim C9 (code-bug evidence): on a run where the transport was
opened through the proxy dialer and the protocol dial then fails,
`NewXMPPConn` returns the error with the connection still open — the
event trace contains the open but never a close; indeed no execution of
`NewXMPPConn` ever emits a close event. -/
theorem claim_c9_socket_close :
    ((newXMPPConn leakCollab leakCfg "pw").1 =
        .error (.sessionEstablishFailed "connection reset")
      ∧ (newXMPPConn leakCollab leakCfg "pw").2.2 = [REvent.opened])
    ∧ (∀ (collab : Collab) (cfg : Config) (pw : String),
        (newXMPPConn collab cfg pw).2.2 = [] ∨
        (newXMPPConn collab cfg pw).2.2 = [REvent.opened]) := by
  constructor
  · exact ⟨by decide, by decide⟩
  · intro collab cfg pw
    unfold newXMPPConn
    repeat' first | split | dsimp only
    all_goals simp

/-- Claim C10: `NewXMPPConn` never modifies the configuration record it
is given — every return path hands back the record unchanged. -/
theorem claim_c10_config_readonly (collab : Collab) (cfg : Config) (pw : String) :
    (newXMPPConn collab cfg pw).2.1 = cfg := by
  unfold newXMPPConn
  repeat' first | split | dsimp only

end Coy
